import Mathlib

/-!
Shallow embedding of the quantitative analytics and lot-accounting engine of
the defi-dashboard-portfolio repository.

Sources embedded here:
  * `src/services/taxService.ts` — `TaxCalculator` (balance tracking,
    FIFO/LIFO cost-basis routines), `convertToTaxTransactions`,
    `calculateHoldingPeriod`, `generateTaxCSV`;
  * `src/services/riskService.ts` — `calculateCovariance`,
    `calculateVariance`, `calculateCorrelation`,
    `calculateDiversificationScore`, the drawdown walk of
    `calculateMaxDrawdown`;
  * `src/services/advancedAnalyticsService.ts` — `calculateRSI`.

Modelling conventions: JavaScript `number` values are modelled as rationals
(`ℚ`), `bigint` values as integers (`ℤ`), the square root inside the
correlation coefficient as `Real.sqrt`.  JavaScript `Map` state is modelled
as a total function with the `get(..) || default` default baked in.
`Date.now()` is modelled as an explicit `now` parameter.  Exceptions are
modelled with `Except String`.
-/

/-- The tax-relevant transaction kinds (`TaxTransactionType` in
`src/types`). -/
inductive TaxTransactionType
  | buy
  | sell
  | transfer_in
  | transfer_out
  | airdrop
  | stake
  | unstake
  | reward
  | swap
deriving DecidableEq, Repr

/-- Cost-basis accounting method (`TaxSettings.method`). -/
inductive TaxMethod
  | FIFO
  | LIFO
  | SPECIFIC_ID
deriving DecidableEq, Repr

/-- `TaxSettings` from `src/types`. -/
structure TaxSettings where
  method : TaxMethod
  includeGasFees : Bool
  includeAirdrops : Bool
  includeStakingRewards : Bool
  longTermThreshold : ℚ
  taxYear : ℤ
deriving DecidableEq, Repr

/-- `TaxTransaction` from `src/types`.  `amount`, `gasUsed`, `gasPrice` are
`bigint` in the source and are modelled as `ℤ`; the USD-denominated fields
are `number` and are modelled as `ℚ`. -/
structure TaxTransaction where
  id : String
  hash : String
  timestamp : ℤ
  date : String
  type : TaxTransactionType
  tokenAddress : String
  tokenSymbol : String
  tokenName : String
  amount : ℤ
  amountFormatted : String
  priceAtTime : ℚ
  usdValue : ℚ
  gasUsed : ℤ
  gasPrice : ℤ
  gasCost : ℚ
  costBasis : ℚ
  proceeds : ℚ
  gainLoss : ℚ
  gainLossPercentage : ℚ
  holdingPeriod : ℤ
  isLongTerm : Bool
  fifoCostBasis : ℚ
  lifoCostBasis : ℚ
  method : TaxMethod
deriving DecidableEq, Repr

instance : Inhabited TaxTransaction :=
  ⟨{ id := "", hash := "", timestamp := 0, date := "",
     type := TaxTransactionType.buy, tokenAddress := "", tokenSymbol := "",
     tokenName := "", amount := 0, amountFormatted := "", priceAtTime := 0,
     usdValue := 0, gasUsed := 0, gasPrice := 0, gasCost := 0, costBasis := 0,
     proceeds := 0, gainLoss := 0, gainLossPercentage := 0, holdingPeriod := 0,
     isLongTerm := false, fifoCostBasis := 0, lifoCostBasis := 0,
     method := TaxMethod.FIFO }⟩

/-- One entry of `TaxCalculator.tokenBalances`. -/
structure TokenBalance where
  amount : ℤ
  costBasis : ℚ
deriving DecidableEq, Repr

/-- `TaxCalculator.tokenBalances` is a JavaScript `Map` read through
`get(tokenKey) || { amount: 0n, costBasis: 0 }`; we model it as the induced
total function from keys to balances. -/
def BalanceMap : Type := String → TokenBalance

/-- The empty balance map (a fresh `Map`). -/
def emptyBalances : BalanceMap := fun _ => { amount := 0, costBasis := 0 }

/-- JavaScript `toLowerCase()`, modelled characterwise (extensionally the
same as `String.toLower`, written via `List.map` so that the kernel can
evaluate it on literals). -/
def stringToLower (s : String) : String :=
  String.mk (s.data.map Char.toLower)

/-- `TaxCalculator.updateTokenBalances` (taxService.ts lines 26–52).
Inflows (`buy`, `transfer_in`, `airdrop`) add quantity and cost basis;
outflows (`sell`, `transfer_out`) subtract quantity, throwing when the
result would be negative, and remove a proportional share of cost basis;
all other transaction kinds leave the map untouched. -/
def updateTokenBalances (balances : BalanceMap) (transaction : TaxTransaction) :
    Except String BalanceMap :=
  let tokenKey := stringToLower transaction.tokenAddress
  let currentBalance := balances tokenKey
  if transaction.type = TaxTransactionType.buy ∨
      transaction.type = TaxTransactionType.transfer_in ∨
      transaction.type = TaxTransactionType.airdrop then
    let newAmount := currentBalance.amount + transaction.amount
    let newCostBasis := currentBalance.costBasis + transaction.costBasis
    Except.ok (fun k => if k = tokenKey then
      { amount := newAmount, costBasis := newCostBasis } else balances k)
  else if transaction.type = TaxTransactionType.sell ∨
      transaction.type = TaxTransactionType.transfer_out then
    let remainingAmount := currentBalance.amount - transaction.amount
    if remainingAmount < 0 then
      Except.error ("Insufficient balance for transaction: " ++ transaction.hash)
    else
      let ratio := (transaction.amount : ℚ) / (currentBalance.amount : ℚ)
      let soldCostBasis := currentBalance.costBasis * ratio
      let remainingCostBasis := currentBalance.costBasis - soldCostBasis
      Except.ok (fun k => if k = tokenKey then
        { amount := remainingAmount, costBasis := remainingCostBasis } else balances k)
  else
    Except.ok balances

/-- The mutable state of a `TaxCalculator` instance: the settings passed to
the constructor, the transaction log and the per-token balance map. -/
structure TaxCalculatorState where
  settings : TaxSettings
  transactions : List TaxTransaction
  tokenBalances : BalanceMap

/-- A freshly constructed `TaxCalculator`. -/
def initialState (settings : TaxSettings) : TaxCalculatorState :=
  { settings := settings, transactions := [], tokenBalances := emptyBalances }

/-- `TaxCalculator.addTransaction` (taxService.ts lines 18–21): push the
transaction, then update the balance map.  Note that
`updateTokenBalances` never consults `settings`, so the balance map
evolves identically under FIFO and LIFO. -/
def addTransaction (s : TaxCalculatorState) (t : TaxTransaction) :
    Except String TaxCalculatorState :=
  match updateTokenBalances s.tokenBalances t with
  | Except.ok b => Except.ok { s with transactions := s.transactions ++ [t], tokenBalances := b }
  | Except.error e => Except.error e

/-- Feeding a list of transactions to `TaxCalculator.addTransaction` one by
one, stopping at the first failure. -/
def processTransactions (s : TaxCalculatorState) :
    List TaxTransaction → Except String TaxCalculatorState
  | [] => Except.ok s
  | t :: ts =>
    match addTransaction s t with
    | Except.ok s2 => processTransactions s2 ts
    | Except.error e => Except.error e

/-- Classification of the transaction kinds the balance tracker treats as
inflows. -/
def isInflowKind : TaxTransactionType → Bool
  | TaxTransactionType.buy => true
  | TaxTransactionType.transfer_in => true
  | TaxTransactionType.airdrop => true
  | _ => false

/-- Classification of the transaction kinds the balance tracker treats as
outflows. -/
def isOutflowKind : TaxTransactionType → Bool
  | TaxTransactionType.sell => true
  | TaxTransactionType.transfer_out => true
  | _ => false

/-- Total inflow quantity minus total outflow quantity of the asset keyed by
`key` (a lower-cased token address) over a transaction list. -/
def netQuantity (key : String) (ts : List TaxTransaction) : ℤ :=
  ((ts.filter (fun t => stringToLower t.tokenAddress = key ∧ isInflowKind t.type)).map
      (fun t => t.amount)).sum -
  ((ts.filter (fun t => stringToLower t.tokenAddress = key ∧ isOutflowKind t.type)).map
      (fun t => t.amount)).sum

/-- Stable insertion of a transaction into a list ascending by timestamp;
an element inserted from the left of the original list lands before
equal-timestamp elements, matching JavaScript stable
`sort((a, b) => a.timestamp - b.timestamp)`. -/
def insertAscByTimestamp (x : TaxTransaction) :
    List TaxTransaction → List TaxTransaction
  | [] => [x]
  | y :: ys =>
    if x.timestamp ≤ y.timestamp then x :: y :: ys
    else y :: insertAscByTimestamp x ys

/-- Stable sort ascending by timestamp. -/
def sortAscByTimestamp (l : List TaxTransaction) : List TaxTransaction :=
  l.foldr insertAscByTimestamp []

/-- Stable insertion descending by timestamp, matching JavaScript stable
`sort((a, b) => b.timestamp - a.timestamp)`. -/
def insertDescByTimestamp (x : TaxTransaction) :
    List TaxTransaction → List TaxTransaction
  | [] => [x]
  | y :: ys =>
    if y.timestamp ≤ x.timestamp then x :: y :: ys
    else y :: insertDescByTimestamp x ys

/-- Stable sort descending by timestamp. -/
def sortDescByTimestamp (l : List TaxTransaction) : List TaxTransaction :=
  l.foldr insertDescByTimestamp []

/-- One step of the lot-consumption loop shared by
`calculateFIFOCostBasis` and `calculateLIFOCostBasis` (taxService.ts lines
74–82 and 107–115).  The accumulator is `(remainingAmount, costBasis)`;
once `remainingAmount ≤ 0` the JavaScript loop breaks, which is modelled
by leaving the accumulator unchanged. -/
def lotConsumptionStep (acc : ℚ × ℚ) (tx : TaxTransaction) : ℚ × ℚ :=
  let txAmount : ℚ := (tx.amount : ℚ)
  if acc.1 ≤ 0 then acc
  else
    let amountToUse := min acc.1 txAmount
    let ratio := amountToUse / txAmount
    (acc.1 - amountToUse, acc.2 + tx.costBasis * ratio)

/-- The predicate selecting the acquisition transactions relevant to a
disposal in `calculateFIFOCostBasis` / `calculateLIFOCostBasis`. -/
def relevantAcquisition (transaction t : TaxTransaction) : Bool :=
  stringToLower t.tokenAddress = stringToLower transaction.tokenAddress ∧
    (t.type = TaxTransactionType.buy ∨ t.type = TaxTransactionType.transfer_in ∨
      t.type = TaxTransactionType.airdrop) ∧
    t.timestamp < transaction.timestamp

/-- `TaxCalculator.calculateFIFOCostBasis` (taxService.ts lines 57–85):
oldest acquisitions are consumed first. -/
def calculateFIFOCostBasis (transactions : List TaxTransaction)
    (transaction : TaxTransaction) : ℚ :=
  if ¬(transaction.type = TaxTransactionType.sell ∨
      transaction.type = TaxTransactionType.transfer_out) then
    transaction.costBasis
  else
    let relevantTransactions :=
      sortAscByTimestamp (transactions.filter (relevantAcquisition transaction))
    (relevantTransactions.foldl lotConsumptionStep ((transaction.amount : ℚ), 0)).2

/-- `TaxCalculator.calculateLIFOCostBasis` (taxService.ts lines 90–118):
newest acquisitions are consumed first. -/
def calculateLIFOCostBasis (transactions : List TaxTransaction)
    (transaction : TaxTransaction) : ℚ :=
  if ¬(transaction.type = TaxTransactionType.sell ∨
      transaction.type = TaxTransactionType.transfer_out) then
    transaction.costBasis
  else
    let relevantTransactions :=
      sortDescByTimestamp (transactions.filter (relevantAcquisition transaction))
    (relevantTransactions.foldl lotConsumptionStep ((transaction.amount : ℚ), 0)).2

/-- `calculateHoldingPeriod` (taxService.ts lines 344–348): whole days
elapsed between the transaction timestamp and the current wall clock
(`Math.floor(Date.now() / 1000)`), made an explicit `now` parameter. -/
def calculateHoldingPeriod (now timestamp : ℤ) : ℤ :=
  Int.floor ((((now - timestamp : ℤ)) : ℚ) / (24 * 60 * 60))

/-- Civil calendar date `(year, month, day)` of a day count relative to
1970-01-01, the standard era-based conversion used to model
`new Date(ts * 1000).toISOString().split('T')[0]`. -/
def civilFromDays (z0 : ℤ) : ℤ × ℤ × ℤ :=
  let z := z0 + 719468
  let era := Int.fdiv z 146097
  let doe := z - era * 146097
  let yoe := Int.fdiv (doe - Int.fdiv doe 1460 + Int.fdiv doe 36524 - Int.fdiv doe 146096) 365
  let y := yoe + era * 400
  let doy := doe - (365 * yoe + Int.fdiv yoe 4 - Int.fdiv yoe 100)
  let mp := Int.fdiv (5 * doy + 2) 153
  let d := doy - Int.fdiv (153 * mp + 2) 5 + 1
  let m := mp + (if mp < 10 then 3 else -9)
  (y + (if m ≤ 2 then 1 else 0), m, d)

/-- Two-digit zero padding for month and day fields. -/
def pad2 (n : ℤ) : String :=
  if n < 10 then "0" ++ toString n else toString n

/-- The `YYYY-MM-DD` date string recorded on a `TaxTransaction`. -/
def toISODateString (timestamp : ℤ) : String :=
  let c := civilFromDays (Int.fdiv timestamp 86400)
  toString c.1 ++ "-" ++ pad2 c.2.1 ++ "-" ++ pad2 c.2.2

/-- Left-pad a digit string with zeros to the given length. -/
def padLeftZeros (s : String) (len : ℕ) : String :=
  if s.length < len then String.mk (List.replicate (len - s.length) '0') ++ s
  else s

/-- viem `formatUnits` on a non-negative value: insert a decimal point
`decimals` digits from the right and trim trailing zeros. -/
def formatUnitsNat (v : ℕ) (decimals : ℕ) : String :=
  let base := 10 ^ decimals
  let ip := v / base
  let fp := v % base
  let fracDigits := (padLeftZeros (toString fp) decimals).dropRightWhile (fun c => c = '0')
  toString ip ++ (if fracDigits = "" then "" else "." ++ fracDigits)

/-- viem `formatUnits`. -/
def formatUnits (value : ℤ) (decimals : ℕ) : String :=
  if value < 0 then "-" ++ formatUnitsNat (-value).toNat decimals
  else formatUnitsNat value.toNat decimals

/-- The kinds of raw wallet transactions (`TransactionType` in
`src/types`). -/
inductive TransactionKind
  | eth_transfer
  | token_transfer
  | contract_interaction
  | swap
  | defi
deriving DecidableEq, Repr

/-- Transfer direction of a raw wallet transaction. -/
inductive TransferDirection
  | dirIn
  | dirOut
  | dirSelf
deriving DecidableEq, Repr

/-- The raw wallet transaction consumed by `convertToTaxTransactions`
(`Transaction = EthTransaction | TokenTransfer` in `src/types`).  The
TypeScript union is flattened: the token-specific fields are only read
through `(tx as TokenTransfer)` casts when `type` is `token_transfer`,
and `logIndex` is absent (`none`) on plain ETH transfers, matching the
`(tx as TokenTransfer).logIndex || 0` read. -/
structure Transaction where
  hash : String
  timestamp : ℤ
  value : ℤ
  gasPrice : ℤ
  gasUsed : Option ℤ
  type : TransactionKind
  direction : TransferDirection
  tokenAddress : String
  tokenSymbol : String
  tokenName : String
  tokenDecimals : ℕ
  tokenAmount : ℤ
  logIndex : Option ℕ
deriving DecidableEq, Repr

/-- `getHistoricalTokenPrice` (taxService.ts lines 313–339): the mock
symbol-to-price table, defaulting to 1 for unknown symbols.  The
timestamp argument is accepted and ignored, as in the source. -/
def getHistoricalTokenPrice (tokenSymbol : String) (_timestamp : ℤ) : ℚ :=
  if tokenSymbol = "ETH" then 1800
  else if tokenSymbol = "USDC" then 1
  else if tokenSymbol = "USDT" then 1
  else if tokenSymbol = "DAI" then 1
  else if tokenSymbol = "WBTC" then 45000
  else if tokenSymbol = "WETH" then 1800
  else if tokenSymbol = "UNI" then 15
  else if tokenSymbol = "AAVE" then 150
  else if tokenSymbol = "LINK" then 25
  else 1

/-- The body of the `convertToTaxTransactions` loop (taxService.ts lines
220–305) for a single raw transaction: `none` when the transaction is a
skipped contract interaction, otherwise the constructed
`TaxTransaction`.  `now` is the wall-clock second used by
`calculateHoldingPeriod`. -/
def convertTransaction (now : ℤ) (settings : TaxSettings) (tx : Transaction) :
    Option TaxTransaction :=
  if tx.type = TransactionKind.contract_interaction then none
  else
    let taxType : TaxTransactionType :=
      if tx.type = TransactionKind.eth_transfer then
        (if tx.direction = TransferDirection.dirIn then TaxTransactionType.transfer_in
         else TaxTransactionType.transfer_out)
      else if tx.type = TransactionKind.token_transfer then
        (if tx.direction = TransferDirection.dirIn then TaxTransactionType.transfer_in
         else TaxTransactionType.transfer_out)
      else TaxTransactionType.transfer_out
    let priceSymbol := if tx.type = TransactionKind.eth_transfer then "ethereum" else tx.tokenSymbol
    let priceAtTime := getHistoricalTokenPrice priceSymbol tx.timestamp
    let tokenValue : ℚ :=
      if tx.type = TransactionKind.eth_transfer then (tx.value : ℚ) / 10 ^ 18
      else (tx.tokenAmount : ℚ) / 10 ^ tx.tokenDecimals
    let usdValue := tokenValue * priceAtTime
    let gasCost : ℚ :=
      match tx.gasUsed with
      | some g => ((g * tx.gasPrice : ℤ) : ℚ) / 10 ^ 18 * priceAtTime
      | none => 0
    let basisProceeds : ℚ × ℚ :=
      if taxType = TaxTransactionType.transfer_in then
        (usdValue + (if settings.includeGasFees then gasCost else 0), 0)
      else if taxType = TaxTransactionType.transfer_out then
        (0, usdValue - (if settings.includeGasFees then gasCost else 0))
      else if taxType = TaxTransactionType.airdrop then
        (usdValue + (if settings.includeGasFees then gasCost else 0), 0)
      else
        (0, usdValue - (if settings.includeGasFees then gasCost else 0))
    let costBasis := basisProceeds.1
    let proceeds := basisProceeds.2
    let gainLoss := proceeds - costBasis
    let gainLossPercentage := if costBasis > 0 then gainLoss / costBasis * 100 else 0
    let holdingPeriod := calculateHoldingPeriod now tx.timestamp
    let isLongTerm : Bool := settings.longTermThreshold ≤ (holdingPeriod : ℚ)
    some
      { id := tx.hash ++ "_" ++ toString (tx.logIndex.getD 0),
        hash := tx.hash,
        timestamp := tx.timestamp,
        date := toISODateString tx.timestamp,
        type := taxType,
        tokenAddress := if tx.type = TransactionKind.eth_transfer then
          "0x0000000000000000000000000000000000000000" else tx.tokenAddress,
        tokenSymbol := if tx.type = TransactionKind.eth_transfer then "ETH" else tx.tokenSymbol,
        tokenName := if tx.type = TransactionKind.eth_transfer then "Ethereum" else tx.tokenName,
        amount := if tx.type = TransactionKind.eth_transfer then tx.value else tx.tokenAmount,
        amountFormatted := if tx.type = TransactionKind.eth_transfer then
          formatUnits tx.value 18 else formatUnits tx.tokenAmount tx.tokenDecimals,
        priceAtTime := priceAtTime,
        usdValue := usdValue,
        gasUsed := tx.gasUsed.getD 0,
        gasPrice := tx.gasPrice,
        gasCost := gasCost,
        costBasis := costBasis,
        proceeds := proceeds,
        gainLoss := gainLoss,
        gainLossPercentage := gainLossPercentage,
        holdingPeriod := holdingPeriod,
        isLongTerm := isLongTerm,
        fifoCostBasis := if settings.method = TaxMethod.FIFO then costBasis else 0,
        lifoCostBasis := if settings.method = TaxMethod.LIFO then costBasis else 0,
        method := settings.method }

/-- `convertToTaxTransactions` (taxService.ts lines 214–308). -/
def convertToTaxTransactions (now : ℤ) (transactions : List Transaction)
    (settings : TaxSettings) : List TaxTransaction :=
  transactions.filterMap (convertTransaction now settings)

/-- `calculateCovariance` (riskService.ts lines 130–142): population
covariance of two equal-length return series, 0 on mismatched or empty
input. -/
def calculateCovariance (returns1 returns2 : List ℚ) : ℚ :=
  if returns1.length ≠ returns2.length ∨ returns1.length = 0 then 0
  else
    let mean1 := returns1.sum / (returns1.length : ℚ)
    let mean2 := returns2.sum / (returns2.length : ℚ)
    ((List.zip returns1 returns2).map (fun p => (p.1 - mean1) * (p.2 - mean2))).sum /
      (returns1.length : ℚ)

/-- `calculateVariance` (riskService.ts lines 335–342): population variance
of a return series, 0 on empty input. -/
def calculateVariance (returns : List ℚ) : ℚ :=
  if returns.length = 0 then 0
  else
    let mean := returns.sum / (returns.length : ℚ)
    (returns.map (fun r => (r - mean) ^ 2)).sum / (returns.length : ℚ)

/-- `calculateCorrelation` (riskService.ts lines 320–330): covariance over
the product of standard deviations, with guards returning 0 for
mismatched lengths, empty input, or a vanishing standard deviation. -/
noncomputable def calculateCorrelation (returns1 returns2 : List ℚ) : ℝ :=
  if returns1.length ≠ returns2.length ∨ returns1.length = 0 then 0
  else
    let covariance : ℝ := ((calculateCovariance returns1 returns2 : ℚ) : ℝ)
    let stdDev1 : ℝ := Real.sqrt ((calculateVariance returns1 : ℚ) : ℝ)
    let stdDev2 : ℝ := Real.sqrt ((calculateVariance returns2 : ℚ) : ℝ)
    if stdDev1 = 0 ∨ stdDev2 = 0 then 0
    else covariance / (stdDev1 * stdDev2)

/-- The fields of `Token` (`src/types`) the risk metrics read; `usdValue`
and `price` are optional in the source and read through `|| 0` /
`|| 1` defaults. -/
structure Token where
  address : String
  symbol : String
  name : String
  decimals : ℕ
  usdValue : Option ℚ
  price : Option ℚ
deriving DecidableEq, Repr

/-- `calculateDiversificationScore` (riskService.ts lines 347–369):
`max 0 (100 - HHI * 100)` with the HHI accumulated over squared value
weights. -/
def calculateDiversificationScore (tokens : List Token) : ℚ :=
  if tokens.length = 0 then 0
  else
    let totalValue := tokens.foldl (fun sum t => sum + t.usdValue.getD 0) 0
    let hhi := tokens.foldl
      (fun h t => h + (t.usdValue.getD 0 / totalValue) * (t.usdValue.getD 0 / totalValue)) 0
    max 0 (100 - hhi * 100)

/-- One step of the drawdown walk of `calculateMaxDrawdown`
(riskService.ts lines 184–193).  The accumulator is
`(maxDrawdown, peak)`. -/
def maxDrawdownStep (acc : ℚ × ℚ) (value : ℚ) : ℚ × ℚ :=
  let peak := if value > acc.2 then value else acc.2
  let drawdown := (peak - value) / peak
  (if drawdown > acc.1 then drawdown else acc.1, peak)

/-- The chronological walk of `calculateMaxDrawdown` (riskService.ts lines
181–195) over an already-fetched portfolio-value series (the fetch is an
external collaborator): peak initialised to
`portfolioValues[0]?.value || 0`, maximum observed drawdown reported as a
percentage. -/
def calculateMaxDrawdown (portfolioValues : List ℚ) : ℚ :=
  (portfolioValues.foldl maxDrawdownStep (0, portfolioValues.headD 0)).1 * 100

/-- Consecutive price changes `prices[i] - prices[i-1]`. -/
def priceChanges : List ℚ → List ℚ
  | p0 :: p1 :: rest => (p1 - p0) :: priceChanges (p1 :: rest)
  | _ => []

/-- The gain/loss accumulation loop of `calculateRSI`
(advancedAnalyticsService.ts lines 471–481): positive changes add to
gains, other changes subtract from (i.e. add their magnitude to)
losses. -/
def rsiGainLoss (changes : List ℚ) : ℚ × ℚ :=
  changes.foldl
    (fun acc change =>
      if change > 0 then (acc.1 + change, acc.2) else (acc.1, acc.2 - change))
    (0, 0)

/-- `calculateRSI` (advancedAnalyticsService.ts lines 468–492): neutral 50
when fewer than `period + 1` prices are available; 100 when the average
loss over the window is 0; `100 - 100 / (1 + RS)` otherwise.  The loop
`for (let i = 1; i <= period; i++)` reads exactly the first
`period + 1` prices. -/
def calculateRSI (prices : List ℚ) (period : ℕ) : ℚ :=
  if prices.length < period + 1 then 50
  else
    let gl := rsiGainLoss (priceChanges (prices.take (period + 1)))
    let avgGain := gl.1 / (period : ℚ)
    let avgLoss := gl.2 / (period : ℚ)
    if avgLoss = 0 then 100
    else
      let rs := avgGain / avgLoss
      100 - (100 / (1 + rs))

/-- The summary block of `TaxReport` (`src/types`). -/
structure TaxReportSummary where
  totalTransactions : ℕ
  buyTransactions : ℕ
  sellTransactions : ℕ
  averageHoldingPeriod : ℚ
  bestPerformingToken : String
  worstPerformingToken : String
deriving DecidableEq, Repr

/-- `TaxReport` (`src/types`). -/
structure TaxReport where
  year : ℤ
  totalProceeds : ℚ
  totalCostBasis : ℚ
  totalGainLoss : ℚ
  shortTermGainLoss : ℚ
  longTermGainLoss : ℚ
  transactions : List TaxTransaction
  summary : TaxReportSummary
deriving DecidableEq, Repr

/-- The string value of a `TaxTransactionType` (a string-literal union in
TypeScript). -/
def taxTypeString : TaxTransactionType → String
  | TaxTransactionType.buy => "buy"
  | TaxTransactionType.sell => "sell"
  | TaxTransactionType.transfer_in => "transfer_in"
  | TaxTransactionType.transfer_out => "transfer_out"
  | TaxTransactionType.airdrop => "airdrop"
  | TaxTransactionType.stake => "stake"
  | TaxTransactionType.unstake => "unstake"
  | TaxTransactionType.reward => "reward"
  | TaxTransactionType.swap => "swap"

/-- JavaScript `Number.prototype.toFixed`: round to `digits` fractional
digits, ties toward larger magnitude, sign emitted separately. -/
def toFixed (digits : ℕ) (q : ℚ) : String :=
  let sign := if q < 0 then "-" else ""
  let scaled : ℤ := Int.floor (|q| * 10 ^ digits + 1 / 2)
  let n := scaled.toNat
  let base := 10 ^ digits
  sign ++ toString (n / base) ++
    (if digits = 0 then "" else "." ++ padLeftZeros (toString (n % base)) digits)

/-- The header row of `generateTaxCSV` (taxService.ts lines 354–369). -/
def taxCsvHeaders : List String :=
  ["Date", "Transaction Hash", "Type", "Token Symbol", "Amount",
   "Price at Time", "USD Value", "Cost Basis", "Proceeds", "Gain/Loss",
   "Gain/Loss %", "Holding Period (Days)", "Long Term", "Gas Cost"]

/-- `generateTaxCSV` (taxService.ts lines 353–393): one row per report
transaction, each cell double-quoted, cells joined by commas and lines
by newlines. -/
def generateTaxCSV (taxReport : TaxReport) : String :=
  let rows := taxReport.transactions.map (fun tx =>
    [tx.date, tx.hash, taxTypeString tx.type, tx.tokenSymbol, tx.amountFormatted,
     toFixed 6 tx.priceAtTime, toFixed 2 tx.usdValue, toFixed 2 tx.costBasis,
     toFixed 2 tx.proceeds, toFixed 2 tx.gainLoss, toFixed 2 tx.gainLossPercentage,
     toString tx.holdingPeriod, (if tx.isLongTerm then "Yes" else "No"),
     toFixed 2 tx.gasCost])
  String.intercalate "\n" ((taxCsvHeaders :: rows).map (fun row =>
    String.intercalate "," (row.map (fun cell => "\"" ++ cell ++ "\""))))

/-- Spec-side (spec §4.1): `weightedAverage(values, weights)` divides the
weighted sum by the weight sum and returns 0 when the weight sum is 0. -/
def weightedAverage (values weights : List ℚ) : ℚ :=
  let ws := weights.sum
  if ws = 0 then 0
  else ((List.zip values weights).map (fun p => p.1 * p.2)).sum / ws

/-- Spec-side (spec §4.3): the holding period of a disposal in whole days —
the disposal timestamp minus the quantity-weighted average of the consumed
lots' acquisition timestamps.  A lot is a `(quantity, acquisitionTimestamp)`
pair. -/
def specHoldingPeriod (disposalTimestamp : ℤ) (lots : List (ℚ × ℤ)) : ℤ :=
  Int.floor
    (((disposalTimestamp : ℚ) -
        weightedAverage (lots.map (fun l => ((l.2 : ℤ) : ℚ)))
          (lots.map (fun l => l.1))) / (24 * 60 * 60))

/-- Spec-side: total USD value of a holdings list. -/
def totalUsdValue (tokens : List Token) : ℚ :=
  (tokens.map (fun t => t.usdValue.getD 0)).sum

/-- Spec-side (spec §4.2): the Herfindahl–Hirschman index, the sum of
squared value weights. -/
def hhiOf (tokens : List Token) : ℚ :=
  (tokens.map (fun t => (t.usdValue.getD 0 / totalUsdValue tokens) ^ 2)).sum

/-- Spec-side (spec §4.2): the per-point drawdowns of a value series walked
chronologically with a running peak — drawdown at each point is
`(peak - value) / peak`. -/
def specDrawdowns (peak : ℚ) : List ℚ → List ℚ
  | [] => []
  | v :: rest => (max peak v - v) / max peak v :: specDrawdowns (max peak v) rest

/-- Spec-side (spec §6, report export contract): the flat tabular row for
one tax transaction, fields in the contract order — date, hash, type,
asset, amount, price, USD value, cost basis, proceeds, gain/loss,
gain/loss %, holding period, long-term flag, gas cost. -/
def csvContractRow (tx : TaxTransaction) : List String :=
  [tx.date, tx.hash, taxTypeString tx.type, tx.tokenSymbol, tx.amountFormatted,
   toFixed 6 tx.priceAtTime, toFixed 2 tx.usdValue, toFixed 2 tx.costBasis,
   toFixed 2 tx.proceeds, toFixed 2 tx.gainLoss, toFixed 2 tx.gainLossPercentage,
   toString tx.holdingPeriod, (if tx.isLongTerm then "Yes" else "No"),
   toFixed 2 tx.gasCost]

/-- Zero out the two method-selected cost-basis mirror fields and the
method tag, leaving every economically meaningful field of a
`TaxTransaction` intact. -/
def eraseMethodFields (t : TaxTransaction) : TaxTransaction :=
  { t with fifoCostBasis := 0, lifoCostBasis := 0, method := TaxMethod.FIFO }

/-- A `TaxTransaction` with the fields relevant to lot accounting set and
all others defaulted, used to build concrete scenarios. -/
def simpleTaxTx (hash : String) (timestamp : ℤ) (ty : TaxTransactionType)
    (addr : String) (amount : ℤ) (costBasis proceeds : ℚ) : TaxTransaction :=
  { (default : TaxTransaction) with
    id := hash, hash := hash, timestamp := timestamp, type := ty,
    tokenAddress := addr, amount := amount, costBasis := costBasis,
    proceeds := proceeds }

/-- Scenario inflow 1: 10 units acquired at 1 USD each (cost basis 10). -/
def scenarioBuy1 : TaxTransaction :=
  simpleTaxTx "0xbuy1" 1 TaxTransactionType.transfer_in "0xa" 10 10 0

/-- Scenario inflow 2: 10 units acquired at 3 USD each (cost basis 30). -/
def scenarioBuy2 : TaxTransaction :=
  simpleTaxTx "0xbuy2" 2 TaxTransactionType.transfer_in "0xa" 10 30 0

/-- Scenario outflow: 10 units disposed at 5 USD each (proceeds 50). -/
def scenarioSell : TaxTransaction :=
  simpleTaxTx "0xsell" 3 TaxTransactionType.transfer_out "0xa" 10 0 50

/-- The full scenario transaction log. -/
def scenarioTxs : List TaxTransaction := [scenarioBuy1, scenarioBuy2, scenarioSell]

/-- Default settings as produced by `getDefaultTaxSettings`, with the tax
year fixed to 2024. -/
def defaultSettings : TaxSettings :=
  { method := TaxMethod.FIFO, includeGasFees := true, includeAirdrops := true,
    includeStakingRewards := true, longTermThreshold := 365, taxYear := 2024 }

/-- The balance-map invariant maintained by the tax calculator: for every
asset key the tracked quantity equals the net inflow-minus-outflow
quantity of the logged transactions and is non-negative. -/
def balanceInvariant (s : TaxCalculatorState) : Prop :=
  ∀ key, (s.tokenBalances key).amount = netQuantity key s.transactions ∧
    0 ≤ (s.tokenBalances key).amount

/-- A concrete balance map holding 5 units of every asset, used by
witnesses. -/
def fiveBalance : BalanceMap :=
  fun _ => { amount := 5, costBasis := 5 }

/-- A concrete outflow of 10 units, used to overdraw `fiveBalance`. -/
def overdraftTx : TaxTransaction :=
  simpleTaxTx "0xover" 4 TaxTransactionType.sell "0xa" 10 0 50

/-- A concrete in-budget outflow of 3 units against `fiveBalance`. -/
def smallSellTx : TaxTransaction :=
  simpleTaxTx "0xsmall" 4 TaxTransactionType.sell "0xa" 3 0 15

/-- A concrete holding used by witnesses. -/
def ethToken : Token :=
  { address := "0xeth", symbol := "ETH", name := "Ethereum", decimals := 18,
    usdValue := some 6000, price := some 1800 }

/-- A concrete raw token inflow used by witnesses: 10 USDC received 100
days before the reference instant 1700000000. -/
def rawBuyTx : Transaction :=
  { hash := "0xaaa1", timestamp := 1700000000 - 86400 * 100, value := 0,
    gasPrice := 0, gasUsed := none, type := TransactionKind.token_transfer,
    direction := TransferDirection.dirIn, tokenAddress := "0xC0FFEE",
    tokenSymbol := "USDC", tokenName := "USD Coin", tokenDecimals := 0,
    tokenAmount := 10, logIndex := some 1 }

/-- A concrete raw token outflow used by witnesses: the same 10 USDC sent
out at the reference instant 1700000000. -/
def rawSellTx : Transaction :=
  { hash := "0xaaa2", timestamp := 1700000000, value := 0,
    gasPrice := 0, gasUsed := none, type := TransactionKind.token_transfer,
    direction := TransferDirection.dirOut, tokenAddress := "0xC0FFEE",
    tokenSymbol := "USDC", tokenName := "USD Coin", tokenDecimals := 0,
    tokenAmount := 10, logIndex := some 2 }

/-- The tax transaction produced by converting `rawSellTx`, used by
witnesses. -/
def witnessTaxTx : TaxTransaction :=
  (convertToTaxTransactions 1700000000 [rawSellTx] defaultSettings).getD 0 default

theorem isInflowKind_iff (ty : TaxTransactionType) :
    isInflowKind ty = true ↔
      (ty = TaxTransactionType.buy ∨ ty = TaxTransactionType.transfer_in ∨
        ty = TaxTransactionType.airdrop) := by
  cases ty <;> simp [isInflowKind]

theorem isOutflowKind_iff (ty : TaxTransactionType) :
    isOutflowKind ty = true ↔
      (ty = TaxTransactionType.sell ∨ ty = TaxTransactionType.transfer_out) := by
  cases ty <;> simp [isOutflowKind]

theorem inflow_not_outflow (ty : TaxTransactionType) (h : isInflowKind ty = true) :
    isOutflowKind ty = false := by
  cases ty <;> simp_all [isInflowKind, isOutflowKind]

theorem netQuantity_append (key : String) (l : List TaxTransaction)
    (t : TaxTransaction) :
    netQuantity key (l ++ [t]) =
      netQuantity key l +
        (if stringToLower t.tokenAddress = key ∧ isInflowKind t.type then t.amount else 0) -
        (if stringToLower t.tokenAddress = key ∧ isOutflowKind t.type then t.amount else 0) := by
  simp only [netQuantity, List.filter_append, List.map_append, List.sum_append,
    List.filter_cons, List.filter_nil]
  by_cases ha : stringToLower t.tokenAddress = key
  · by_cases hi : isInflowKind t.type = true
    · have ho : isOutflowKind t.type = false := inflow_not_outflow _ hi
      simp [ha, hi, ho]
      omega
    · rw [Bool.not_eq_true] at hi
      by_cases ho : isOutflowKind t.type = true
      · simp [ha, hi, ho]
        omega
      · rw [Bool.not_eq_true] at ho
        simp [ha, hi, ho]
  · simp [ha]

theorem updateTokenBalances_ok_spec (b : BalanceMap) (t : TaxTransaction)
    (b' : BalanceMap) (h : updateTokenBalances b t = Except.ok b') (key : String) :
    (b' key).amount =
      (b key).amount +
        (if stringToLower t.tokenAddress = key ∧ isInflowKind t.type then t.amount else 0) -
        (if stringToLower t.tokenAddress = key ∧ isOutflowKind t.type then t.amount else 0) ∧
    (0 ≤ (b key).amount → 0 ≤ t.amount → 0 ≤ (b' key).amount) := by
  simp only [updateTokenBalances] at h
  by_cases hin : t.type = TaxTransactionType.buy ∨
      t.type = TaxTransactionType.transfer_in ∨ t.type = TaxTransactionType.airdrop
  · -- inflow branch
    rw [if_pos hin] at h
    simp only [Except.ok.injEq] at h
    subst h
    have hi : isInflowKind t.type = true := (isInflowKind_iff t.type).mpr hin
    have ho : isOutflowKind t.type = false := inflow_not_outflow t.type hi
    by_cases hk : stringToLower t.tokenAddress = key
    · subst hk
      constructor
      · simp [hi, ho]
      · intro h1 h2
        simp
        omega
    · have hk2 : ¬(key = stringToLower t.tokenAddress) := fun hc => hk hc.symm
      constructor
      · simp [hk, hk2]
      · intro h1 _
        simpa [hk2] using h1
  · rw [if_neg hin] at h
    by_cases hout : t.type = TaxTransactionType.sell ∨
        t.type = TaxTransactionType.transfer_out
    · rw [if_pos hout] at h
      by_cases hneg : (b (stringToLower t.tokenAddress)).amount - t.amount < 0
      · -- insufficient balance: contradiction with a successful update
        rw [if_pos hneg] at h
        exact absurd h (by simp)
      · -- sufficient balance
        rw [if_neg hneg] at h
        simp only [Except.ok.injEq] at h
        subst h
        have ho : isOutflowKind t.type = true := (isOutflowKind_iff t.type).mpr hout
        have hi : isInflowKind t.type = false := by
          cases ty : t.type <;> simp_all [isInflowKind, isOutflowKind]
        by_cases hk : stringToLower t.tokenAddress = key
        · subst hk
          constructor
          · simp [hi, ho]
          · intro _ _
            simp
            omega
        · have hk2 : ¬(key = stringToLower t.tokenAddress) := fun hc => hk hc.symm
          constructor
          · simp [hk, hk2]
          · intro h1 _
            simpa [hk2] using h1
    · -- neither inflow nor outflow: balances untouched
      rw [if_neg hout] at h
      simp only [Except.ok.injEq] at h
      subst h
      have hi : isInflowKind t.type = false := by
        rcases hin' : isInflowKind t.type with _ | _
        · rfl
        · exact absurd ((isInflowKind_iff t.type).mp hin') hin
      have ho : isOutflowKind t.type = false := by
        rcases hout' : isOutflowKind t.type with _ | _
        · rfl
        · exact absurd ((isOutflowKind_iff t.type).mp hout') hout
      constructor
      · simp [hi, ho]
      · intro h1 _
        exact h1

theorem addTransaction_invariant (s s' : TaxCalculatorState) (t : TaxTransaction)
    (hamt : 0 ≤ t.amount) (h : addTransaction s t = Except.ok s')
    (hinv : balanceInvariant s) : balanceInvariant s' := by
  unfold addTransaction at h
  cases hub : updateTokenBalances s.tokenBalances t with
  | error e => rw [hub] at h; exact absurd h (by simp)
  | ok b =>
    rw [hub] at h
    simp only [Except.ok.injEq] at h
    subst h
    intro key
    obtain ⟨heq, hpos⟩ := updateTokenBalances_ok_spec s.tokenBalances t b hub key
    have h0 := hinv key
    constructor
    · show (b key).amount = netQuantity key (s.transactions ++ [t])
      rw [netQuantity_append, heq, h0.1]
    · exact hpos h0.2 hamt

theorem addTransaction_transactions (s s' : TaxCalculatorState) (t : TaxTransaction)
    (h : addTransaction s t = Except.ok s') :
    s'.transactions = s.transactions ++ [t] := by
  unfold addTransaction at h
  cases hub : updateTokenBalances s.tokenBalances t with
  | error e => rw [hub] at h; exact absurd h (by simp)
  | ok b =>
    rw [hub] at h
    simp only [Except.ok.injEq] at h
    subst h
    rfl

theorem processTransactions_transactions (l : List TaxTransaction) :
    ∀ s s', processTransactions s l = Except.ok s' →
      s'.transactions = s.transactions ++ l := by
  induction l with
  | nil =>
    intro s s' h
    simp only [processTransactions, Except.ok.injEq] at h
    subst h
    simp
  | cons t ts ih =>
    intro s s' h
    unfold processTransactions at h
    cases hadd : addTransaction s t with
    | error e => rw [hadd] at h; exact absurd h (by simp)
    | ok s2 =>
      rw [hadd] at h
      have h2 := ih s2 s' h
      rw [h2, addTransaction_transactions s s2 t hadd]
      simp

theorem processTransactions_invariant (l : List TaxTransaction) :
    ∀ s s', (∀ t ∈ l, 0 ≤ t.amount) →
      processTransactions s l = Except.ok s' →
      balanceInvariant s → balanceInvariant s' := by
  induction l with
  | nil =>
    intro s s' _ h hinv
    simp only [processTransactions, Except.ok.injEq] at h
    subst h
    exact hinv
  | cons t ts ih =>
    intro s s' hamt h hinv
    unfold processTransactions at h
    cases hadd : addTransaction s t with
    | error e => rw [hadd] at h; exact absurd h (by simp)
    | ok s2 =>
      rw [hadd] at h
      exact ih s2 s' (fun t' ht' => hamt t' (List.mem_cons_of_mem _ ht')) h
        (addTransaction_invariant s s2 t (hamt t (List.mem_cons_self _ _)) hadd hinv)

theorem processTransactions_cons (s : TaxCalculatorState) (t : TaxTransaction)
    (ts : List TaxTransaction) :
    processTransactions s (t :: ts) =
      match addTransaction s t with
      | Except.ok s2 => processTransactions s2 ts
      | Except.error e => Except.error e := rfl

theorem processTransactions_cons_ok (s s2 : TaxCalculatorState)
    (t : TaxTransaction) (ts : List TaxTransaction)
    (h : addTransaction s t = Except.ok s2) :
    processTransactions s (t :: ts) = processTransactions s2 ts := by
  rw [processTransactions_cons, h]

theorem processTransactions_cons_error (s : TaxCalculatorState)
    (t : TaxTransaction) (ts : List TaxTransaction) (e : String)
    (h : addTransaction s t = Except.error e) :
    processTransactions s (t :: ts) = Except.error e := by
  rw [processTransactions_cons, h]

theorem processTransactions_append_ok (l1 l2 : List TaxTransaction) :
    ∀ s s', processTransactions s (l1 ++ l2) = Except.ok s' →
      ∃ sm, processTransactions s l1 = Except.ok sm ∧
        processTransactions sm l2 = Except.ok s' := by
  induction l1 with
  | nil => intro s s' h; exact ⟨s, rfl, h⟩
  | cons t ts ih =>
    intro s s' h
    rw [List.cons_append] at h
    cases hadd : addTransaction s t with
    | error e =>
      rw [processTransactions_cons_error s t (ts ++ l2) e hadd] at h
      exact absurd h (by simp)
    | ok s2 =>
      rw [processTransactions_cons_ok s s2 t (ts ++ l2) hadd] at h
      obtain ⟨sm, h1, h2⟩ := ih s2 s' h
      exact ⟨sm, by rw [processTransactions_cons_ok s s2 t ts hadd]; exact h1, h2⟩

theorem initialState_invariant (settings : TaxSettings) :
    balanceInvariant (initialState settings) := by
  intro key
  simp [initialState, emptyBalances, netQuantity, balanceInvariant]

/-- C1: For the transaction sequence inflow of 10 units at 1 USD each
(cost basis 10), then inflow of 10 units at 3 USD each (cost basis 30),
then an outflow of 10 units at a price of 5 USD (proceeds 50), the FIFO
cost-basis routine consumes the oldest lot (cost basis 10) so the realized
gain, proceeds minus consumed cost basis, is 40; the LIFO routine consumes
the newest lot (cost basis 30) so the realized gain is 20. -/
theorem fifo_lifo_divergence :
    calculateFIFOCostBasis scenarioTxs scenarioSell = 10 ∧
    calculateLIFOCostBasis scenarioTxs scenarioSell = 30 ∧
    scenarioSell.proceeds - calculateFIFOCostBasis scenarioTxs scenarioSell = 40 ∧
    scenarioSell.proceeds - calculateLIFOCostBasis scenarioTxs scenarioSell = 20 := by
  norm_num [calculateFIFOCostBasis, calculateLIFOCostBasis, relevantAcquisition,
    sortAscByTimestamp, insertAscByTimestamp, sortDescByTimestamp,
    insertDescByTimestamp, lotConsumptionStep, scenarioTxs, scenarioBuy1,
    scenarioBuy2, scenarioSell, simpleTaxTx]

/-- C2: after processing any prefix of a transaction list on which the
whole run succeeds (no outflow ever exceeds the then-available balance) and
whose quantities are non-negative, the tracked remaining quantity of every
asset equals its total inflow quantity minus total outflow quantity and is
never negative.  The statement quantifies over arbitrary `settings`, so it
holds regardless of the FIFO/LIFO accounting method. -/
theorem lot_balance_invariant (settings : TaxSettings)
    (ts p rest : List TaxTransaction) (hsplit : ts = p ++ rest)
    (hamt : ∀ t ∈ ts, 0 ≤ t.amount)
    (hok : (processTransactions (initialState settings) ts).isOk = true)
    (key : String) :
    ∃ s, processTransactions (initialState settings) p = Except.ok s ∧
      (s.tokenBalances key).amount = netQuantity key p ∧
      0 ≤ (s.tokenBalances key).amount := by
  subst hsplit
  obtain ⟨sF, hF⟩ : ∃ sF,
      processTransactions (initialState settings) (p ++ rest) = Except.ok sF := by
    cases hh : processTransactions (initialState settings) (p ++ rest) with
    | ok s => exact ⟨s, rfl⟩
    | error e => rw [hh] at hok; exact absurd hok (by simp [Except.isOk, Except.toBool])
  obtain ⟨sm, h1, _⟩ := processTransactions_append_ok p rest _ _ hF
  have hinv := processTransactions_invariant p _ sm
    (fun t ht => hamt t (List.mem_append_left _ ht)) h1
    (initialState_invariant settings)
  have htr := processTransactions_transactions p _ sm h1
  refine ⟨sm, h1, ?_, (hinv key).2⟩
  have heq := (hinv key).1
  rw [htr] at heq
  simpa using heq

/-- Witness for C2 at the concrete scenario: the prefix consisting of the
first inflow leaves the asset keyed `0xa` with the net quantity of that
prefix, non-negatively. -/
theorem lot_balance_invariant_witness :
    ∃ s, processTransactions (initialState defaultSettings) [scenarioBuy1] =
        Except.ok s ∧
      (s.tokenBalances "0xa").amount = netQuantity "0xa" [scenarioBuy1] ∧
      0 ≤ (s.tokenBalances "0xa").amount :=
  lot_balance_invariant defaultSettings scenarioTxs [scenarioBuy1]
    [scenarioBuy2, scenarioSell] rfl (by decide) (by decide) "0xa"

/-- C3: an outflow whose quantity exceeds the available tracked balance for
that asset makes `updateTokenBalances` fail with the distinguishable
insufficient-balance error rather than record a negative quantity, while an
outflow within the available balance succeeds and leaves the exact
non-negative remainder. -/
theorem insufficient_balance_failure (b : BalanceMap) (t : TaxTransaction)
    (hty : t.type = TaxTransactionType.sell ∨
      t.type = TaxTransactionType.transfer_out) :
    ((b (stringToLower t.tokenAddress)).amount < t.amount →
      updateTokenBalances b t =
        Except.error ("Insufficient balance for transaction: " ++ t.hash)) ∧
    (t.amount ≤ (b (stringToLower t.tokenAddress)).amount →
      ∃ b', updateTokenBalances b t = Except.ok b' ∧
        (b' (stringToLower t.tokenAddress)).amount =
          (b (stringToLower t.tokenAddress)).amount - t.amount ∧
        0 ≤ (b' (stringToLower t.tokenAddress)).amount) := by
  have hnotin : ¬(t.type = TaxTransactionType.buy ∨
      t.type = TaxTransactionType.transfer_in ∨
      t.type = TaxTransactionType.airdrop) := by
    rcases hty with h | h <;> rw [h] <;> simp
  constructor
  · intro hlt
    simp only [updateTokenBalances]
    rw [if_neg hnotin, if_pos hty, if_pos (by omega)]
  · intro hle
    simp only [updateTokenBalances]
    rw [if_neg hnotin, if_pos hty, if_neg (by omega)]
    refine ⟨_, rfl, ?_, ?_⟩
    · simp
    · simp
      omega

/-- Witness for C3: a balance of 5 units cannot cover an outflow of 10
units and produces the insufficient-balance error; it can cover an outflow
of 3 units, leaving exactly 2. -/
theorem insufficient_balance_failure_witness :
    updateTokenBalances fiveBalance overdraftTx =
      Except.error ("Insufficient balance for transaction: " ++ overdraftTx.hash) ∧
    ∃ b', updateTokenBalances fiveBalance smallSellTx = Except.ok b' ∧
      (b' (stringToLower smallSellTx.tokenAddress)).amount =
        (fiveBalance (stringToLower smallSellTx.tokenAddress)).amount - smallSellTx.amount ∧
      0 ≤ (b' (stringToLower smallSellTx.tokenAddress)).amount :=
  ⟨(insufficient_balance_failure fiveBalance overdraftTx (Or.inl rfl)).1 (by decide),
   (insufficient_balance_failure fiveBalance smallSellTx (Or.inl rfl)).2 (by decide)⟩

/-- C4: for equal-length return series, a vanishing variance (equivalently,
a vanishing standard deviation) of either series makes `calculateCorrelation`
return 0, and whenever the division branch is taken its denominator, the
product of the two standard deviations, is non-zero — the computation never
divides by zero. -/
theorem correlation_zero_when_flat (a b : List ℚ) (hlen : a.length = b.length) :
    (calculateVariance a = 0 ∨ calculateVariance b = 0 →
      calculateCorrelation a b = 0) ∧
    (calculateCorrelation a b = 0 ∨
      Real.sqrt ((calculateVariance a : ℚ) : ℝ) *
        Real.sqrt ((calculateVariance b : ℚ) : ℝ) ≠ 0) := by
  simp only [calculateCorrelation]
  by_cases h0 : a.length ≠ b.length ∨ a.length = 0
  · rw [if_pos h0]
    exact ⟨fun _ => rfl, Or.inl rfl⟩
  · rw [if_neg h0]
    by_cases hsd : Real.sqrt ((calculateVariance a : ℚ) : ℝ) = 0 ∨
        Real.sqrt ((calculateVariance b : ℚ) : ℝ) = 0
    · rw [if_pos hsd]
      exact ⟨fun _ => rfl, Or.inl rfl⟩
    · rw [if_neg hsd]
      push_neg at hsd
      constructor
      · intro hvar
        exfalso
        rcases hvar with hv | hv
        · exact hsd.1 (by rw [hv]; simp)
        · exact hsd.2 (by rw [hv]; simp)
      · exact Or.inr (mul_ne_zero hsd.1 hsd.2)

/-- Witness for C4: the flat series `[1, 1]` has zero variance, so its
correlation with `[2, 3]` is 0. -/
theorem correlation_zero_when_flat_witness :
    calculateCorrelation [(1 : ℚ), 1] [2, 3] = 0 :=
  (correlation_zero_when_flat [(1 : ℚ), 1] [2, 3] rfl).1
    (Or.inl (by norm_num [calculateVariance]))

/-- C5 counterexample: the strictly monotonically increasing 14-point price
series 1..14 falls under the `prices.length < period + 1` insufficient-data
guard of `calculateRSI` (14 < 15), which returns the neutral 50 — not 100
as the claim states. -/
theorem rsi_14_point_counterexample :
    List.Chain' (fun x y : ℚ => x < y)
      [1, 2, 3, 4, 5, 6, 7, 8, 9, 10, 11, 12, 13, 14] ∧
    List.length [(1 : ℚ), 2, 3, 4, 5, 6, 7, 8, 9, 10, 11, 12, 13, 14] = 14 ∧
    calculateRSI [(1 : ℚ), 2, 3, 4, 5, 6, 7, 8, 9, 10, 11, 12, 13, 14] 14 = 50 ∧
    calculateRSI [(1 : ℚ), 2, 3, 4, 5, 6, 7, 8, 9, 10, 11, 12, 13, 14] 14 ≠ 100 := by
  refine ⟨?_, rfl, ?_, ?_⟩
  · norm_num [List.chain'_cons]
  · norm_num [calculateRSI]
  · norm_num [calculateRSI]

theorem priceChanges_pos : ∀ (l : List ℚ),
    List.Chain' (fun x y : ℚ => x < y) l → ∀ c ∈ priceChanges l, 0 < c := by
  intro l
  induction l with
  | nil => simp [priceChanges]
  | cons p rest ih =>
    cases rest with
    | nil => simp [priceChanges]
    | cons q rest2 =>
      intro hchain c hc
      rw [List.chain'_cons] at hchain
      simp only [priceChanges, List.mem_cons] at hc
      rcases hc with hc | hc
      · rw [hc]
        exact sub_pos.mpr hchain.1
      · exact ih hchain.2 c hc

theorem rsiGainLoss_no_losses : ∀ (changes : List ℚ) (init : ℚ × ℚ),
    (∀ c ∈ changes, 0 < c) →
    (changes.foldl
      (fun acc change =>
        if change > 0 then (acc.1 + change, acc.2) else (acc.1, acc.2 - change))
      init).2 = init.2 := by
  intro changes
  induction changes with
  | nil => intro init _; rfl
  | cons c cs ih =>
    intro init hpos
    simp only [List.foldl_cons]
    rw [if_pos (hpos c (List.mem_cons_self _ _))]
    exact ih _ (fun c' hc' => hpos c' (List.mem_cons_of_mem _ hc'))

/-- C5 amended: `calculateRSI` needs `period + 1` prices (the loop reads
`period` consecutive changes); for every strictly monotonically increasing
price series of at least `period + 1` points the average loss over the
window is 0 and the RSI is exactly 100.  A 14-point series with the default
period 14 instead hits the insufficient-data guard and yields the
neutral 50. -/
theorem rsi_increasing_is_100 (prices : List ℚ) (period : ℕ)
    (hlen : period + 1 ≤ prices.length)
    (hmono : List.Chain' (fun x y : ℚ => x < y) prices) :
    calculateRSI prices period = 100 := by
  have hchanges : ∀ c ∈ priceChanges (prices.take (period + 1)), 0 < c :=
    priceChanges_pos _ (hmono.take _)
  have hloss : (rsiGainLoss (priceChanges (prices.take (period + 1)))).2 = 0 := by
    unfold rsiGainLoss
    exact rsiGainLoss_no_losses _ _ hchanges
  simp only [calculateRSI]
  rw [if_neg (by omega)]
  rw [hloss]
  simp

/-- Witness for C5's amended claim: the strictly increasing 15-point series
1..15 with the default period 14 yields RSI exactly 100. -/
theorem rsi_increasing_is_100_witness :
    calculateRSI [(1 : ℚ), 2, 3, 4, 5, 6, 7, 8, 9, 10, 11, 12, 13, 14, 15] 14 = 100 :=
  rsi_increasing_is_100 [(1 : ℚ), 2, 3, 4, 5, 6, 7, 8, 9, 10, 11, 12, 13, 14, 15] 14
    (by norm_num) (by norm_num [List.chain'_cons])

/-- C6 counterexample: converting an inflow of 10 units acquired 100 days
before the reference instant 1700000000 followed by a disposal of those 10
units at that instant records holding period 0 on the disposal (the code
measures from the transaction timestamp to the current wall clock), while
the claimed formula — disposal timestamp minus the quantity-weighted
average acquisition timestamp of the consumed lot — gives 100 days. -/
theorem holding_period_counterexample :
    ((convertToTaxTransactions 1700000000 [rawBuyTx, rawSellTx]
        defaultSettings).getD 1 default).holdingPeriod = 0 ∧
    specHoldingPeriod 1700000000 [(10, 1700000000 - 86400 * 100)] = 100 ∧
    ((convertToTaxTransactions 1700000000 [rawBuyTx, rawSellTx]
        defaultSettings).getD 1 default).holdingPeriod ≠
      specHoldingPeriod 1700000000 [(10, 1700000000 - 86400 * 100)] := by
  have h1 : ((convertToTaxTransactions 1700000000 [rawBuyTx, rawSellTx]
      defaultSettings).getD 1 default).holdingPeriod = 0 := by
    norm_num +decide [convertToTaxTransactions, convertTransaction,
      calculateHoldingPeriod, rawBuyTx, rawSellTx, defaultSettings,
      List.filterMap_cons, getHistoricalTokenPrice]
  have h2 : specHoldingPeriod 1700000000 [(10, 1700000000 - 86400 * 100)] = 100 := by
    norm_num [specHoldingPeriod, weightedAverage]
  refine ⟨h1, h2, ?_⟩
  rw [h1, h2]
  norm_num

/-- C6 amended: the holding period recorded on every converted tax
transaction is the whole-day difference between the evaluation wall clock
`now` and the transaction's own timestamp — it never consults the consumed
lots — and the long-term flag is set exactly when this holding period
reaches the configured threshold. -/
theorem holding_period_amended (now : ℤ) (txs : List Transaction)
    (settings : TaxSettings) (ttx : TaxTransaction)
    (h : ttx ∈ convertToTaxTransactions now txs settings) :
    ttx.holdingPeriod =
      Int.floor ((((now - ttx.timestamp : ℤ)) : ℚ) / (24 * 60 * 60)) ∧
    (ttx.isLongTerm = true ↔
      settings.longTermThreshold ≤ (ttx.holdingPeriod : ℚ)) := by
  rcases List.mem_filterMap.mp h with ⟨tx, _htx, hconv⟩
  simp only [convertTransaction] at hconv
  by_cases hci : tx.type = TransactionKind.contract_interaction
  · rw [if_pos hci] at hconv
    exact Option.noConfusion hconv
  · rw [if_neg hci] at hconv
    simp only [Option.some.injEq] at hconv
    subst hconv
    constructor
    · rfl
    · simp [decide_eq_true_iff]

/-- Witness for C6's amended claim at the concrete disposal `rawSellTx`
converted at instant 1700000000. -/
theorem holding_period_amended_witness :
    witnessTaxTx.holdingPeriod =
      Int.floor ((((1700000000 - witnessTaxTx.timestamp : ℤ)) : ℚ) / (24 * 60 * 60)) ∧
    (witnessTaxTx.isLongTerm = true ↔
      defaultSettings.longTermThreshold ≤ (witnessTaxTx.holdingPeriod : ℚ)) :=
  holding_period_amended 1700000000 [rawSellTx] defaultSettings witnessTaxTx
    (by
      cases hc : convertTransaction 1700000000 defaultSettings rawSellTx with
      | none => exact absurd hc (by decide)
      | some r =>
        simp [witnessTaxTx, convertToTaxTransactions, List.filterMap_cons, hc])

theorem foldl_add_init (f : Token → ℚ) (init : ℚ) (l : List Token) :
    l.foldl (fun s t => s + f t) init = init + (l.map f).sum := by
  induction l generalizing init with
  | nil => simp
  | cons t ts ih =>
    simp only [List.foldl_cons, List.map_cons, List.sum_cons]
    rw [ih]
    ring

theorem divScore_replicate (n : ℕ) (t : Token) (v : ℚ) (hn : 0 < n)
    (hv : t.usdValue = some v) (hvpos : 0 < v) :
    calculateDiversificationScore (List.replicate n t) = 100 - 100 / (n : ℚ) := by
  simp only [calculateDiversificationScore]
  rw [if_neg (by simp [List.length_replicate]; omega)]
  rw [foldl_add_init, foldl_add_init]
  simp only [List.map_replicate, List.sum_replicate, hv, Option.getD_some,
    zero_add, nsmul_eq_mul]
  have hn0 : ((n : ℚ)) ≠ 0 := Nat.cast_ne_zero.mpr (by omega)
  have hv0 : v ≠ 0 := ne_of_gt hvpos
  have hw : v / ((n : ℚ) * v) = 1 / n := by
    field_simp
    ring
  rw [hw]
  have hh : (n : ℚ) * (1 / n * (1 / n)) = 1 / n := by
    field_simp
  rw [hh]
  have h1 : (1 : ℚ) ≤ (n : ℚ) := by exact_mod_cast hn
  have h2 : (1 / (n : ℚ)) * 100 ≤ 100 := by
    rw [div_mul_eq_mul_div, one_mul]
    exact div_le_self (by norm_num) h1
  rw [max_eq_right (by linarith)]
  rw [div_mul_eq_mul_div, one_mul]

/-- C7: for non-empty holdings with positive total USD value the
diversification score is `max 0 (100 - HHI * 100)` where the HHI is the sum
of squared value weights; a single positively-valued asset (weight 1)
scores 0; `n` equally-valued assets score `100 - 100/n`, which strictly
increases toward 100 as the count grows. -/
theorem diversification_score_spec (tokens : List Token) (hne : tokens ≠ [])
    (hpos : 0 < totalUsdValue tokens) :
    calculateDiversificationScore tokens = max 0 (100 - hhiOf tokens * 100) ∧
    (∀ (t : Token) (v : ℚ), t.usdValue = some v → 0 < v →
      calculateDiversificationScore [t] = 0) ∧
    (∀ (n : ℕ) (t : Token) (v : ℚ), 0 < n → t.usdValue = some v → 0 < v →
      calculateDiversificationScore (List.replicate n t) = 100 - 100 / (n : ℚ)) ∧
    (∀ (m n : ℕ) (t : Token) (v : ℚ), 0 < m → m < n →
      t.usdValue = some v → 0 < v →
      calculateDiversificationScore (List.replicate m t) <
        calculateDiversificationScore (List.replicate n t)) := by
  refine ⟨?_, ?_, ?_, ?_⟩
  · simp only [calculateDiversificationScore]
    rw [if_neg (by simp [List.length_eq_zero, hne])]
    rw [foldl_add_init, foldl_add_init]
    simp only [zero_add, hhiOf, totalUsdValue, pow_two]
  · intro t v hv hvp
    have h := divScore_replicate 1 t v (by norm_num) hv hvp
    simpa using h
  · intro n t v hn hv hvp
    exact divScore_replicate n t v hn hv hvp
  · intro m n t v hm hmn hv hvp
    rw [divScore_replicate m t v hm hv hvp,
      divScore_replicate n t v (by omega) hv hvp]
    have hlt : 100 / (n : ℚ) < 100 / (m : ℚ) := by
      apply div_lt_div_of_pos_left (by norm_num)
      · exact_mod_cast hm
      · exact_mod_cast hmn
    linarith

/-- Witness for C7: a single ETH holding worth 6000 USD has weight 1 and
diversification score 0. -/
theorem diversification_score_spec_witness :
    calculateDiversificationScore [ethToken] = 0 :=
  (diversification_score_spec [ethToken] (by simp)
      (by norm_num [totalUsdValue, ethToken])).2.1 ethToken 6000 rfl (by norm_num)

theorem ite_gt_max (a b : ℚ) : (if a < b then b else a) = max a b := by
  rcases lt_or_le a b with h | h
  · rw [if_pos h, max_eq_right h.le]
  · rw [if_neg (not_lt.mpr h), max_eq_left h]

theorem maxDrawdownStep_eq (m p v : ℚ) :
    maxDrawdownStep (m, p) v =
      (max m ((max p v - v) / max p v), max p v) := by
  simp only [maxDrawdownStep]
  rw [ite_gt_max p v, ite_gt_max m ((max p v - v) / max p v)]

theorem foldl_maxDrawdown_eq : ∀ (values : List ℚ) (m p : ℚ),
    (values.foldl maxDrawdownStep (m, p)).1 =
      (specDrawdowns p values).foldl max m := by
  intro values
  induction values with
  | nil => intro m p; rfl
  | cons v rest ih =>
    intro m p
    simp only [List.foldl_cons, specDrawdowns]
    rw [maxDrawdownStep_eq]
    exact ih (max m ((max p v - v) / max p v)) (max p v)

theorem specDrawdowns_chain_zero : ∀ (values : List ℚ) (p : ℚ),
    List.Chain' (fun x y : ℚ => x ≤ y) (p :: values) →
    ∀ d ∈ specDrawdowns p values, d = 0 := by
  intro values
  induction values with
  | nil => intro p _ d hd; simp [specDrawdowns] at hd
  | cons v rest ih =>
    intro p hchain d hd
    rw [List.chain'_cons] at hchain
    simp only [specDrawdowns, List.mem_cons] at hd
    have hmax : max p v = v := max_eq_right hchain.1
    rcases hd with hd | hd
    · rw [hmax, sub_self, zero_div] at hd
      exact hd
    · rw [hmax] at hd
      exact ih v hchain.2 d hd

theorem foldl_max_zero : ∀ (l : List ℚ), (∀ d ∈ l, d = 0) → l.foldl max 0 = 0 := by
  intro l
  induction l with
  | nil => intro _; rfl
  | cons d ds ih =>
    intro h
    simp only [List.foldl_cons]
    rw [h d (List.mem_cons_self _ _), max_self]
    exact ih (fun d' hd' => h d' (List.mem_cons_of_mem _ hd'))

/-- C8: over a positive portfolio-value series the drawdown walk equals 100
times the maximum of the per-point drawdowns `(peak - value) / peak`
computed against the running peak; a monotonically non-decreasing series
has maximum drawdown 0; a series that doubles and then halves back
(`[w, 2w, w]`) has maximum drawdown 50 (percent). -/
theorem max_drawdown_spec (values : List ℚ) (hpos : ∀ v ∈ values, 0 < v) :
    calculateMaxDrawdown values =
      100 * ((specDrawdowns (values.headD 0) values).foldl max 0) ∧
    (List.Chain' (fun x y : ℚ => x ≤ y) values →
      calculateMaxDrawdown values = 0) ∧
    (∀ w : ℚ, 0 < w → calculateMaxDrawdown [w, 2 * w, w] = 50) := by
  refine ⟨?_, ?_, ?_⟩
  · simp only [calculateMaxDrawdown]
    rw [foldl_maxDrawdown_eq]
    ring
  · intro hchain
    simp only [calculateMaxDrawdown]
    rw [foldl_maxDrawdown_eq]
    cases values with
    | nil => simp [specDrawdowns]
    | cons v rest =>
      have hz : ∀ d ∈ specDrawdowns ((v :: rest).headD 0) (v :: rest), d = 0 := by
        simp only [List.headD_cons]
        exact specDrawdowns_chain_zero (v :: rest) v
          (List.chain'_cons.mpr ⟨le_refl v, hchain⟩)
      rw [foldl_max_zero _ hz]
      ring
  · intro w hw
    have h2w : w < 2 * w := by linarith
    have hw0 : w ≠ 0 := ne_of_gt hw
    simp only [calculateMaxDrawdown, List.foldl_cons, List.foldl_nil,
      List.headD_cons]
    rw [maxDrawdownStep_eq 0 w w, max_self, sub_self, zero_div, max_self]
    rw [maxDrawdownStep_eq 0 w (2 * w), max_eq_right h2w.le, sub_self, zero_div,
      max_self]
    rw [maxDrawdownStep_eq 0 (2 * w) w, max_eq_left h2w.le]
    have hdd : (2 * w - w) / (2 * w) = 1 / 2 := by
      field_simp
      ring
    rw [hdd, max_eq_right (by norm_num : (0 : ℚ) ≤ 1 / 2)]
    norm_num

/-- Witness for C8: the series 100, 200, 100 (a doubling followed by a
halving) has maximum drawdown 50 percent. -/
theorem max_drawdown_spec_witness :
    calculateMaxDrawdown [(100 : ℚ), 2 * 100, 100] = 50 :=
  (max_drawdown_spec [(100 : ℚ), 2 * 100, 100]
      (by norm_num [List.forall_mem_cons])).2.2 100 (by norm_num)

/-- C9: `generateTaxCSV` serializes a report as the header line followed by
exactly one row per report transaction, in report order, each row being the
14 contract fields — date, hash, type, token symbol, amount, price at time,
USD value, cost basis, proceeds, gain/loss, gain/loss %, holding period,
long-term flag, gas cost — with no field missing, added, or reordered. -/
theorem tax_csv_contract (r : TaxReport) :
    generateTaxCSV r =
      String.intercalate "\n"
        ((taxCsvHeaders :: r.transactions.map csvContractRow).map (fun row =>
          String.intercalate "," (row.map (fun cell => "\"" ++ cell ++ "\"")))) ∧
    (taxCsvHeaders :: r.transactions.map csvContractRow).length =
      1 + r.transactions.length ∧
    taxCsvHeaders.length = 14 ∧
    ∀ tx : TaxTransaction,
      (csvContractRow tx).length = 14 ∧
      csvContractRow tx =
        [tx.date, tx.hash, taxTypeString tx.type, tx.tokenSymbol,
         tx.amountFormatted, toFixed 6 tx.priceAtTime, toFixed 2 tx.usdValue,
         toFixed 2 tx.costBasis, toFixed 2 tx.proceeds, toFixed 2 tx.gainLoss,
         toFixed 2 tx.gainLossPercentage, toString tx.holdingPeriod,
         (if tx.isLongTerm then "Yes" else "No"), toFixed 2 tx.gasCost] := by
  refine ⟨rfl, ?_, rfl, fun tx => ⟨rfl, rfl⟩⟩
  simp [Nat.add_comm]

theorem convertTransaction_method_erase (now : ℤ) (s : TaxSettings)
    (m1 m2 : TaxMethod) (tx : Transaction) :
    (convertTransaction now { s with method := m1 } tx).map eraseMethodFields =
      (convertTransaction now { s with method := m2 } tx).map eraseMethodFields := by
  simp only [convertTransaction]
  by_cases hci : tx.type = TransactionKind.contract_interaction
  · rw [if_pos hci, if_pos hci]
  · rw [if_neg hci, if_neg hci]
    rfl

theorem filterMap_map_congr {α β γ : Type} (f g : α → Option β) (e : β → γ)
    (h : ∀ x, (f x).map e = (g x).map e) (l : List α) :
    (l.filterMap f).map e = (l.filterMap g).map e := by
  induction l with
  | nil => rfl
  | cons x l ih =>
    rw [List.filterMap_cons, List.filterMap_cons]
    have hx := h x
    cases hfx : f x with
    | none =>
      cases hgx : g x with
      | none => exact ih
      | some y =>
        rw [hfx, hgx] at hx
        exact absurd hx (by simp)
    | some y =>
      cases hgx : g x with
      | none =>
        rw [hfx, hgx] at hx
        exact absurd hx (by simp)
      | some y2 =>
        rw [hfx, hgx] at hx
        simp only [List.map_cons, ih]
        simp only [Option.map_some'] at hx
        simp only [Option.some.injEq] at hx
        rw [hx]

theorem convertTransaction_fifo_fields (now : ℤ) (s : TaxSettings)
    (hs : s.method = TaxMethod.FIFO) (tx : Transaction) (t : TaxTransaction)
    (h : convertTransaction now s tx = some t) :
    t.fifoCostBasis = t.costBasis ∧ t.lifoCostBasis = 0 := by
  simp only [convertTransaction] at h
  by_cases hci : tx.type = TransactionKind.contract_interaction
  · rw [if_pos hci] at h
    exact Option.noConfusion h
  · rw [if_neg hci] at h
    simp only [Option.some.injEq] at h
    subst h
    constructor
    · simp [hs]
    · simp [hs]

theorem convertTransaction_lifo_fields (now : ℤ) (s : TaxSettings)
    (hs : s.method = TaxMethod.LIFO) (tx : Transaction) (t : TaxTransaction)
    (h : convertTransaction now s tx = some t) :
    t.lifoCostBasis = t.costBasis ∧ t.fifoCostBasis = 0 := by
  simp only [convertTransaction] at h
  by_cases hci : tx.type = TransactionKind.contract_interaction
  · rw [if_pos hci] at h
    exact Option.noConfusion h
  · rw [if_neg hci] at h
    simp only [Option.some.injEq] at h
    subst h
    constructor
    · simp [hs]
    · simp [hs]

theorem updateTokenBalances_congr (t1 t2 : TaxTransaction)
    (ht : eraseMethodFields t1 = eraseMethodFields t2) (b : BalanceMap) :
    updateTokenBalances b t1 = updateTokenBalances b t2 := by
  have haddr : t1.tokenAddress = t2.tokenAddress := by
    have h' := congrArg TaxTransaction.tokenAddress ht
    exact h'
  have htype : t1.type = t2.type := by
    have h' := congrArg TaxTransaction.type ht
    exact h'
  have hamount : t1.amount = t2.amount := by
    have h' := congrArg TaxTransaction.amount ht
    exact h'
  have hcb : t1.costBasis = t2.costBasis := by
    have h' := congrArg TaxTransaction.costBasis ht
    exact h'
  have hh : t1.hash = t2.hash := by
    have h' := congrArg TaxTransaction.hash ht
    exact h'
  simp only [updateTokenBalances, haddr, htype, hamount, hcb, hh]

theorem processTransactions_balances_congr :
    ∀ (l1 l2 : List TaxTransaction),
      l1.map eraseMethodFields = l2.map eraseMethodFields →
      ∀ (s1 s2 : TaxCalculatorState), s1.tokenBalances = s2.tokenBalances →
        (processTransactions s1 l1).map (fun st => st.tokenBalances) =
          (processTransactions s2 l2).map (fun st => st.tokenBalances) := by
  intro l1
  induction l1 with
  | nil =>
    intro l2 h s1 s2 hb
    have hl2 : l2 = [] := by
      cases l2 with
      | nil => rfl
      | cons x xs => exact absurd h (by simp)
    subst hl2
    simp [processTransactions, Except.map, hb]
  | cons t1 r1 ih =>
    intro l2 h s1 s2 hb
    cases l2 with
    | nil => exact absurd h (by simp)
    | cons t2 r2 =>
      simp only [List.map_cons, List.cons.injEq] at h
      obtain ⟨ht, hr⟩ := h
      have hupd : updateTokenBalances s1.tokenBalances t1 =
          updateTokenBalances s2.tokenBalances t2 := by
        rw [hb]
        exact updateTokenBalances_congr t1 t2 ht _
      rw [processTransactions_cons, processTransactions_cons]
      simp only [addTransaction]
      rw [hupd]
      cases hu : updateTokenBalances s2.tokenBalances t2 with
      | error e => rfl
      | ok bb => exact ih r2 hr _ _ rfl

/-- C10: settings differing only in the accounting method (FIFO vs LIFO)
produce conversions that agree on every field other than the two
method-selected mirror fields and the method tag — in particular on
gain/loss, proceeds and cost basis — the populated mirror field always
copies `costBasis` while the other mirror is 0, and the per-asset balance
tracking of the processed lists is identical under both methods. -/
theorem method_only_selects_mirror (now : ℤ) (txs : List Transaction)
    (s : TaxSettings) :
    (convertToTaxTransactions now txs { s with method := TaxMethod.FIFO }).map
        eraseMethodFields =
      (convertToTaxTransactions now txs { s with method := TaxMethod.LIFO }).map
        eraseMethodFields ∧
    (∀ t ∈ convertToTaxTransactions now txs { s with method := TaxMethod.FIFO },
      t.fifoCostBasis = t.costBasis ∧ t.lifoCostBasis = 0) ∧
    (∀ t ∈ convertToTaxTransactions now txs { s with method := TaxMethod.LIFO },
      t.lifoCostBasis = t.costBasis ∧ t.fifoCostBasis = 0) ∧
    (processTransactions (initialState { s with method := TaxMethod.FIFO })
        (convertToTaxTransactions now txs
          { s with method := TaxMethod.FIFO })).map (fun st => st.tokenBalances) =
      (processTransactions (initialState { s with method := TaxMethod.LIFO })
        (convertToTaxTransactions now txs
          { s with method := TaxMethod.LIFO })).map (fun st => st.tokenBalances) := by
  have hmap := filterMap_map_congr _ _ eraseMethodFields
    (convertTransaction_method_erase now s TaxMethod.FIFO TaxMethod.LIFO) txs
  refine ⟨hmap, ?_, ?_, ?_⟩
  · intro t ht
    rcases List.mem_filterMap.mp ht with ⟨tx, _, hconv⟩
    exact convertTransaction_fifo_fields now _ rfl tx t hconv
  · intro t ht
    rcases List.mem_filterMap.mp ht with ⟨tx, _, hconv⟩
    exact convertTransaction_lifo_fields now _ rfl tx t hconv
  · exact processTransactions_balances_congr _ _ hmap _ _ rfl
